import Mathlib

/-!
# A toy interactive shell (cd, mv, rm, ls, cp) over `std::filesystem`

Shallow embedding of `Q1_MT23064.cpp`.

* The five handlers (`CdCommand`, `MvCommand`, `RmCommand`, `LsCommand`,
  `CpCommand`) and the dispatcher (`Shell`) are translated statement by
  statement from the source.
* `std::filesystem` is the environment.  It is modelled by a finite table of
  directories and regular files keyed by their absolute location, a current
  working directory and a clock.  Symbolic links, special files, access
  rights of the calling process and device boundaries are outside the model:
  every operation fails exactly for the reasons given with its definition
  (missing path, wrong kind of file, non-empty directory, ...).  Of the host's
  limits, the one on the length of a name is modelled where a lookup meets it
  (`fs::status` and the queries built on it then throw); calls that create or
  write a file are not checked against it.
* `std::regex` is the environment too: the handlers take the engine as a
  parameter.
* A `fs::filesystem_error` is a value.  A library call made inside a
  `try { ... } catch (const fs::filesystem_error&)` block turns it into a
  printed line; a call made outside such a block makes the handler, and with
  it `Shell::executeCommand`, end with `Except.error`.
* Standard output is a list of lines.
* A `String` is a `std::string`: each `Char` stands for one `char`.
-/

/-! ## Characters and path strings -/

/-- `std::isspace` in the "C" locale: space, `\t`, `\n`, `\v`, `\f`, `\r`. -/
def isspace (c : Char) : Bool :=
  c = ' ' || (9 ≤ c.toNat && c.toNat ≤ 13)

/-- `::tolower` in the "C" locale, applied to every character of a string
(`std::transform(cmd.begin(), cmd.end(), cmd.begin(), ::tolower)`). -/
def tolower (s : String) : String :=
  String.mk (s.data.map Char.toLower)

/-- The pieces of a path string between its `/` separators (possibly empty
pieces; never an empty list). -/
def splitSlash : List Char → List (List Char)
  | [] => [[]]
  | c :: cs =>
    if c = '/' then [] :: splitSlash cs
    else
      match splitSlash cs with
      | [] => [[c]]
      | h :: t => (c :: h) :: t

/-- The components the operating system walks for a path string: empty pieces
(repeated slashes, the piece before a leading slash) are skipped, and a
trailing slash stands for a final `.` (the path must then name a
directory). -/
def components (s : String) : List String :=
  let parts := splitSlash s.data
  let last := parts.getLastD []
  ((parts.dropLast.filter (fun x => x ≠ [])) ++ [if last = [] then ['.'] else last]).map String.mk

/-- Whether a path string is absolute (starts with `/`). -/
def isAbsolute (s : String) : Bool :=
  s.data.head? = some '/'

/-- `path::filename()`: the text after the last `/`. -/
def filename (s : String) : String :=
  String.mk ((splitSlash s.data).getLastD [])

/-- `path::operator/`: append `q` to `p` with a separator; an absolute `q`
replaces `p`. -/
def pathAppend (p q : String) : String :=
  if isAbsolute q then q
  else if p = "" then q
  else if p.data.getLast? = some '/' then p ++ q
  else p ++ "/" ++ q

/-- The path string without its trailing slashes (the root stays as it is).
Where a directory is created or moved to, a trailing slash is accepted. -/
def withoutTrailingSlash (p : String) : String :=
  let q := (p.data.reverse.dropWhile (fun c => c = '/')).reverse
  if q = [] then p else String.mk q

/-- `path::parent_path()`: the path without its last piece; the parent of the
root directory is the root directory. -/
def parent_path (s : String) : String :=
  let parts := splitSlash s.data
  let front := String.mk (List.intercalate ['/'] parts.dropLast)
  if parts.length ≤ 1 then ""
  else if front = "" then "/"
  else front

/-- `path::root_path()` for the POSIX path format. -/
def root_path (s : String) : String :=
  if isAbsolute s then "/" else ""

/-! ## The file system state -/

/-- The location of a file: the names from the root directory down to it.
The root directory is `[]`. -/
abbrev Location := List String

/-- What is stored at a location: a regular file with its content, its
permission bits (`fs::perms`) and its last write time, or a directory. -/
inductive Node
  | file (content : String) (perms : Nat) (mtime : Nat)
  | dir
deriving DecidableEq

/-- The state of the file system as the process sees it.  `entries` lists every
file and directory other than the root, each directory's children in the order
in which a directory iterator yields them.  `cwd` is the working directory of
the process; it need not exist any more (a working directory can be removed
while the process is in it).  `now` is the time stamped on files that are
written. -/
structure FileSystem where
  entries : List (Location × Node)
  cwd : Location
  now : Nat
deriving DecidableEq

/-- First entry stored under a location. -/
def lookupLoc : List (Location × Node) → Location → Option Node
  | [], _ => none
  | (q, n) :: es, p => if q = p then some n else lookupLoc es p

/-- The node at a location; the root always is a directory. -/
def FileSystem.node (σ : FileSystem) (p : Location) : Option Node :=
  if p = [] then some Node.dir else lookupLoc σ.entries p

/-- Whether a location holds a directory. -/
def FileSystem.isDir (σ : FileSystem) (p : Location) : Bool :=
  σ.node p = some Node.dir

/-- Whether `p` lies at or below `r`. -/
def under (r p : Location) : Bool :=
  p.take r.length = r

/-- The names of the children of directory `r`, in enumeration order. -/
def FileSystem.children (σ : FileSystem) (r : Location) : List String :=
  σ.entries.filterMap (fun e => if e.1 ≠ [] ∧ e.1.dropLast = r then e.1.getLast? else none)

/-- One step of path resolution from directory `cur`. -/
def stepLoc (cur : Location) (c : String) : Location :=
  if c = "." then cur
  else if c = ".." then cur.dropLast
  else cur ++ [c]

/-- Path resolution: walk the components from `cur`.  Every location that is
stepped through must be a directory; the location reached at the end need not
exist. -/
def walk (σ : FileSystem) : Location → List String → Option Location
  | cur, [] => some cur
  | cur, c :: cs => if σ.isDir cur then walk σ (stepLoc cur c) cs else none

/-- The location a path string denotes: relative paths start at the working
directory, the empty path denotes nothing. -/
def locate (σ : FileSystem) (s : String) : Option Location :=
  if s = "" then none
  else walk σ (if isAbsolute s then [] else σ.cwd) (components s)

/-- The node a path string denotes (`stat`). -/
def stat (σ : FileSystem) (s : String) : Option Node :=
  (locate σ s).bind σ.node

/-- `NAME_MAX`: the longest file name the system looks up. -/
def NAME_MAX : Nat := 255

/-- Whether path resolution comes to look up a name of more than `NAME_MAX`
characters (no entry has such a name, so the lookup fails with "File name too
long" instead of "No such file or directory"). -/
def walkTooLong (σ : FileSystem) : Location → List String → Bool
  | _, [] => false
  | cur, c :: cs =>
    if σ.isDir cur then
      if decide (c.length > NAME_MAX) && (σ.node (stepLoc cur c)).isNone then true
      else walkTooLong σ (stepLoc cur c) cs
    else false

/-- Whether resolving a path string fails with "File name too long". -/
def nameTooLong (σ : FileSystem) (s : String) : Bool :=
  s ≠ "" && walkTooLong σ (if isAbsolute s then [] else σ.cwd) (components s)

/-- The absolute path string of a location. -/
def render (p : Location) : String :=
  if p = [] then "/" else p.foldl (fun acc c => acc ++ "/" ++ c) ""

/-- Every entry has a name that a path component can denote, lies in a
directory, and is listed once. -/
def FileSystem.wellFormed (σ : FileSystem) : Bool :=
  σ.entries.all (fun e =>
    e.1 ≠ [] && σ.isDir e.1.dropLast &&
    e.1.all (fun c => c ≠ "" && c ≠ "." && c ≠ ".." && !c.data.contains '/'))
  && (σ.entries.map (fun e => e.1)).Nodup

/-! ## `std::filesystem` -/

/-- The error conditions the model distinguishes (`std::errc`). -/
inductive Errc
  | no_such_file_or_directory
  | file_exists
  | not_a_directory
  | is_a_directory
  | directory_not_empty
  | not_supported
  | invalid_argument
  | device_or_resource_busy
  | filename_too_long
deriving DecidableEq

/-- The text of an error condition. -/
def Errc.message : Errc → String
  | .no_such_file_or_directory => "No such file or directory"
  | .file_exists => "File exists"
  | .not_a_directory => "Not a directory"
  | .is_a_directory => "Is a directory"
  | .directory_not_empty => "Directory not empty"
  | .not_supported => "Operation not supported"
  | .invalid_argument => "Invalid argument"
  | .device_or_resource_busy => "Device or resource busy"
  | .filename_too_long => "File name too long"

/-- A thrown `fs::filesystem_error`: the failing operation, its error
condition and the paths it was called with. -/
structure filesystem_error where
  op : String
  code : Errc
  paths : List String
deriving DecidableEq

/-- `filesystem_error::what()`. -/
def filesystem_error.what (e : filesystem_error) : String :=
  e.paths.foldl (fun acc q => acc ++ " [" ++ q ++ "]")
    ("filesystem error: " ++ e.op ++ ": " ++ e.code.message)

/-- The outcome of a mutating library call: the state it leaves, and the error
it threw, if any. -/
abbrev FsResult := FileSystem × Option filesystem_error

namespace fs

/-- `fs::status(p)`: the node at `p`, or `none` when nothing is there.  A
failure of the lookup other than "not found" is thrown; in the model that is a
name that is too long. -/
def status (σ : FileSystem) (p : String) : Except filesystem_error (Option Node) :=
  if nameTooLong σ p then .error ⟨"status", .filename_too_long, [p]⟩
  else .ok (stat σ p)

/-- `fs::exists(p)`: `exists(status(p))`. -/
def pathExists (σ : FileSystem) (p : String) : Except filesystem_error Bool :=
  match status σ p with
  | .error e => .error e
  | .ok n => .ok n.isSome

/-- `fs::is_directory(p)`: `is_directory(status(p))`. -/
def is_directory (σ : FileSystem) (p : String) : Except filesystem_error Bool :=
  match status σ p with
  | .error e => .error e
  | .ok n => .ok (n = some Node.dir)

/-- `fs::is_regular_file(p)`: `is_regular_file(status(p))`. -/
def is_regular_file (σ : FileSystem) (p : String) : Except filesystem_error Bool :=
  match status σ p with
  | .error e => .error e
  | .ok (some (Node.file _ _ _)) => .ok true
  | .ok _ => .ok false

/-- `fs::current_path()`: fails when the working directory no longer exists. -/
def current_path (σ : FileSystem) : Except filesystem_error String :=
  if σ.isDir σ.cwd then .ok (render σ.cwd)
  else .error ⟨"cannot get current path", .no_such_file_or_directory, []⟩

/-- `fs::current_path(p)`: change the working directory. -/
def set_current_path (σ : FileSystem) (p : String) : Except filesystem_error FileSystem :=
  match locate σ p with
  | none => .error ⟨"cannot set current path", .no_such_file_or_directory, [p]⟩
  | some r =>
    match σ.node r with
    | some Node.dir => .ok { σ with cwd := r }
    | some _ => .error ⟨"cannot set current path", .not_a_directory, [p]⟩
    | none => .error ⟨"cannot set current path", .no_such_file_or_directory, [p]⟩

/-- `fs::directory_iterator(p)`: the paths of the entries of directory `p`,
each `p / name`. -/
def directory_iterator (σ : FileSystem) (p : String) : Except filesystem_error (List String) :=
  match locate σ p with
  | none => .error ⟨"directory iterator cannot open directory", .no_such_file_or_directory, [p]⟩
  | some r =>
    match σ.node r with
    | some Node.dir => .ok ((σ.children r).map (fun c => pathAppend p c))
    | some _ => .error ⟨"directory iterator cannot open directory", .not_a_directory, [p]⟩
    | none => .error ⟨"directory iterator cannot open directory", .no_such_file_or_directory, [p]⟩

/-- The traversal of `fs::recursive_directory_iterator`: every entry of `p`,
each directory followed at once by the traversal of its own entries.  The
nesting depth is bounded by `fuel`. -/
def recursiveEntries (σ : FileSystem) : Nat → String → List String
  | 0, _ => []
  | fuel + 1, p =>
    match directory_iterator σ p with
    | .error _ => []
    | .ok es =>
      es.flatMap (fun e =>
        e :: (if stat σ e = some Node.dir then recursiveEntries σ fuel e else []))

/-- `fs::recursive_directory_iterator(p)`.  A directory nested `n` deep lies
below `n` other entries, so the number of entries bounds the depth. -/
def recursive_directory_iterator (σ : FileSystem) (p : String) :
    Except filesystem_error (List String) :=
  match directory_iterator σ p with
  | .error e => .error e
  | .ok _ => .ok (recursiveEntries σ (σ.entries.length + 1) p)

/-- `fs::is_empty(p)`: a directory without entries or a file of size 0. -/
def is_empty (σ : FileSystem) (p : String) : Except filesystem_error Bool :=
  match locate σ p with
  | none => .error ⟨"cannot check if file is empty", .no_such_file_or_directory, [p]⟩
  | some r =>
    match σ.node r with
    | some Node.dir => .ok (σ.children r).isEmpty
    | some (Node.file c _ _) => .ok (c.length = 0)
    | none => .error ⟨"cannot check if file is empty", .no_such_file_or_directory, [p]⟩

/-- Delete the entry at location `r`. -/
def eraseLoc (σ : FileSystem) (r : Location) : FileSystem :=
  { σ with entries := σ.entries.filter (fun e => e.1 ≠ r) }

/-- Delete everything strictly below location `r`. -/
def eraseBelow (σ : FileSystem) (r : Location) : FileSystem :=
  { σ with entries := σ.entries.filter (fun e => !(under r e.1) || e.1 = r) }

/-- Whether the last name in a path string is `.` or `..` (trailing slashes
aside). -/
def endsInDot (p : String) : Bool :=
  let names := (splitSlash p.data).filter (fun x => x ≠ [])
  names.getLast? = some ['.'] || names.getLast? = some ['.', '.']

/-- `fs::remove(p)`: delete a file or an empty directory.  A path that does not
exist is not an error.  A directory cannot be removed through a path ending in
`.` or `..`, nor can the root. -/
def remove (σ : FileSystem) (p : String) : FsResult :=
  match locate σ p with
  | none => (σ, none)
  | some r =>
    match σ.node r with
    | none => (σ, none)
    | some (Node.file _ _ _) => (eraseLoc σ r, none)
    | some Node.dir =>
      if r = [] then (σ, some ⟨"cannot remove", .device_or_resource_busy, [p]⟩)
      else if endsInDot p then (σ, some ⟨"cannot remove", .invalid_argument, [p]⟩)
      else if (σ.children r).isEmpty then (eraseLoc σ r, none)
      else (σ, some ⟨"cannot remove", .directory_not_empty, [p]⟩)

/-- `fs::remove_all(p)`: delete everything below `p`, then `p` itself. -/
def remove_all (σ : FileSystem) (p : String) : FsResult :=
  match locate σ p with
  | none => (σ, none)
  | some r =>
    match σ.node r with
    | none => (σ, none)
    | some (Node.file _ _ _) => (eraseLoc σ r, none)
    | some Node.dir =>
      match remove (eraseBelow σ r) p with
      | (σ1, none) => (σ1, none)
      | (σ1, some e) => (σ1, some ⟨"cannot remove all", e.code, [p]⟩)

/-- Store a regular file at location `r`: an existing entry is replaced in
place, a new one is added at the end of the enumeration. -/
def writeLoc (σ : FileSystem) (r : Location) (n : Node) : FileSystem :=
  if (lookupLoc σ.entries r).isSome then
    { σ with entries := σ.entries.map (fun e => if e.1 = r then (r, n) else e) }
  else
    { σ with entries := σ.entries ++ [(r, n)] }

/-- `fs::copy_file(from, to, options)` with `options` either
`copy_options::none` or `copy_options::overwrite_existing`.  The copy gets the
content and permission bits of `from`. -/
def copy_file (σ : FileSystem) (src dst : String) (overwrite_existing : Bool) : FsResult :=
  match stat σ src with
  | none => (σ, some ⟨"cannot copy file", .no_such_file_or_directory, [src, dst]⟩)
  | some Node.dir => (σ, some ⟨"cannot copy file", .invalid_argument, [src, dst]⟩)
  | some (Node.file content perms _) =>
    match locate σ dst with
    | none => (σ, some ⟨"cannot copy file", .no_such_file_or_directory, [src, dst]⟩)
    | some b =>
      match σ.node b with
      | some Node.dir => (σ, some ⟨"cannot copy file", .invalid_argument, [src, dst]⟩)
      | some (Node.file _ _ _) =>
        if locate σ src = some b then (σ, some ⟨"cannot copy file", .file_exists, [src, dst]⟩)
        else if overwrite_existing then (writeLoc σ b (Node.file content perms σ.now), none)
        else (σ, some ⟨"cannot copy file", .file_exists, [src, dst]⟩)
      | none => (writeLoc σ b (Node.file content perms σ.now), none)

/-- `fs::create_directory(p)`: no effect when `p` already is a directory. -/
def create_directory (σ : FileSystem) (p : String) : FsResult :=
  match locate σ (withoutTrailingSlash p) with
  | none => (σ, some ⟨"cannot create directory", .no_such_file_or_directory, [p]⟩)
  | some r =>
    match σ.node r with
    | some Node.dir => (σ, none)
    | some _ => (σ, some ⟨"cannot create directory", .file_exists, [p]⟩)
    | none => ({ σ with entries := σ.entries ++ [(r, Node.dir)] }, none)

/-- The two option sets the program passes to `fs::copy`. -/
inductive copy_options
  | recursive
  | overwrite_existing
deriving DecidableEq

/-- Apply a copy to each entry in turn; the first error ends the loop. -/
def copyEach (f : FileSystem → String → FsResult) : FileSystem → List String → FsResult
  | σ, [] => (σ, none)
  | σ, x :: xs =>
    match f σ x with
    | (σ1, none) => copyEach f σ1 xs
    | r => r

/-- `fs::copy(from, to, options)`.  A regular file is copied with `copy_file`
(into `to` when `to` is a directory).  A directory is copied only under
`copy_options::recursive`: `to` is created if absent and every entry of `from`
is copied to `to / name`; under `overwrite_existing` alone a directory source
has no effect.  `fuel` bounds the nesting depth; running out of it stands for
the path growing beyond what the system accepts. -/
def copy : Nat → FileSystem → String → String → copy_options → FsResult
  | 0, σ, src, dst, _ => (σ, some ⟨"cannot copy", .filename_too_long, [src, dst]⟩)
  | fuel + 1, σ, src, dst, options =>
    match stat σ src with
    | none => (σ, some ⟨"cannot copy", .no_such_file_or_directory, [src, dst]⟩)
    | some f =>
      let t := stat σ dst
      if t.isSome ∧ locate σ src = locate σ dst then (σ, some ⟨"cannot copy", .file_exists, [src, dst]⟩)
      else
        match f with
        | Node.file _ _ _ =>
          if t = some Node.dir then
            copy_file σ src (pathAppend dst (filename src)) (options = .overwrite_existing)
          else copy_file σ src dst (options = .overwrite_existing)
        | Node.dir =>
          if t.isSome ∧ t ≠ some Node.dir then (σ, some ⟨"cannot copy", .is_a_directory, [src, dst]⟩)
          else if options = .recursive then
            match (if t.isSome then (σ, none) else create_directory σ dst) with
            | (σ1, some e) => (σ1, some e)
            | (σ1, none) =>
              match directory_iterator σ1 src with
              | .error e => (σ1, some e)
              | .ok es =>
                copyEach (fun σ2 x => copy fuel σ2 x (pathAppend dst (filename x)) options) σ1 es
          else (σ, none)

/-- `fs::rename(from, to)`: move a file or a directory tree.  An existing
regular file or empty directory at `to` is replaced by a source of the same
kind.  The working directory follows a directory that is moved. -/
def rename (σ : FileSystem) (src dst : String) : FsResult :=
  match (locate σ src).bind (fun a => (σ.node a).map (fun n => (a, n))) with
  | none => (σ, some ⟨"cannot rename", .no_such_file_or_directory, [src, dst]⟩)
  | some (a, n) =>
    match locate σ (if n = Node.dir then withoutTrailingSlash dst else dst) with
    | none => (σ, some ⟨"cannot rename", .no_such_file_or_directory, [src, dst]⟩)
    | some b =>
      if a = [] ∨ b = [] then (σ, some ⟨"cannot rename", .device_or_resource_busy, [src, dst]⟩)
      else if endsInDot src ∨ endsInDot dst then (σ, some ⟨"cannot rename", .invalid_argument, [src, dst]⟩)
      else if a = b then (σ, none)
      else
        let moved : FileSystem :=
          { σ with
            entries := (σ.entries.filter (fun e => e.1 ≠ b)).map
              (fun e => if under a e.1 then (b ++ e.1.drop a.length, e.2) else e)
            cwd := if under a σ.cwd then b ++ σ.cwd.drop a.length else σ.cwd }
        match n, σ.node b with
        | Node.file _ _ _, some Node.dir => (σ, some ⟨"cannot rename", .is_a_directory, [src, dst]⟩)
        | Node.file _ _ _, _ => (moved, none)
        | Node.dir, some (Node.file _ _ _) => (σ, some ⟨"cannot rename", .not_a_directory, [src, dst]⟩)
        | Node.dir, some Node.dir =>
          if under a b then (σ, some ⟨"cannot rename", .invalid_argument, [src, dst]⟩)
          else if (σ.children b).isEmpty then (moved, none)
          else (σ, some ⟨"cannot rename", .directory_not_empty, [src, dst]⟩)
        | Node.dir, none =>
          if under a b then (σ, some ⟨"cannot rename", .invalid_argument, [src, dst]⟩)
          else (moved, none)

end fs

/-! ## `std::regex` (ECMAScript grammar), the fragment the shell can build -/

/-- A pattern character: `.` (any character but a line terminator) or a
literal. -/
inductive RegexAtom
  | any
  | lit (c : Char)
deriving DecidableEq

/-- A term of a pattern: an atom, an atom under `*`, or the assertion `$`. -/
inductive RegexItem
  | one (a : RegexAtom)
  | star (a : RegexAtom)
  | eol
deriving DecidableEq

/-- The lexical units of a pattern. -/
inductive RegexTok
  | atom (a : RegexAtom)
  | starOp
  | dollar
deriving DecidableEq

/-- The ECMAScript syntax characters. -/
def isSyntaxChar (c : Char) : Bool :=
  c ∈ ['^', '$', '\\', '.', '*', '+', '?', '(', ')', '[', ']', '{', '}', '|']

/-- Read the units of a pattern; `escaped` says that the previous character was
a backslash.  Only `.`, `*`, `$`, escaped syntax characters and ordinary
characters are in the fragment; anything else gives `none`. -/
def lexRegex : Bool → List Char → Option (List RegexTok)
  | true, [] => none
  | false, [] => some []
  | true, c :: cs =>
    if isSyntaxChar c then (lexRegex false cs).map (fun r => RegexTok.atom (.lit c) :: r)
    else none
  | false, c :: cs =>
    if c = '\\' then lexRegex true cs
    else if c = '.' then (lexRegex false cs).map (fun r => RegexTok.atom .any :: r)
    else if c = '*' then (lexRegex false cs).map (fun r => RegexTok.starOp :: r)
    else if c = '$' then (lexRegex false cs).map (fun r => RegexTok.dollar :: r)
    else if isSyntaxChar c then none
    else (lexRegex false cs).map (fun r => RegexTok.atom (.lit c) :: r)

/-- Attach each `*` to the atom before it. -/
def groupRegex : List RegexTok → Option (List RegexItem)
  | [] => some []
  | .atom a :: .starOp :: r => (groupRegex r).map (fun x => RegexItem.star a :: x)
  | .atom a :: r => (groupRegex r).map (fun x => RegexItem.one a :: x)
  | .dollar :: r => (groupRegex r).map (fun x => RegexItem.eol :: x)
  | .starOp :: _ => none

/-- `std::regex pattern(s)` for patterns of the fragment. -/
def parseRegex (s : String) : Option (List RegexItem) :=
  (lexRegex false s.data).bind groupRegex

/-- Whether an atom accepts a character. -/
def RegexAtom.accepts : RegexAtom → Char → Bool
  | .any, c => c ≠ '\n' && c ≠ '\r'
  | .lit d, c => c = d

/-- Match `a*` followed by the continuation `k`. -/
def matchStar (k : List Char → Bool) (a : RegexAtom) : List Char → Bool
  | [] => k []
  | c :: s => k (c :: s) || (a.accepts c && matchStar k a s)

/-- Whether the whole character sequence matches the pattern. -/
def matchItems : List RegexItem → List Char → Bool
  | [], s => s.isEmpty
  | .eol :: r, s => s.isEmpty && matchItems r s
  | .one _ :: _, [] => false
  | .one a :: r, c :: s => a.accepts c && matchItems r s
  | .star a :: r, s => matchStar (matchItems r) a s

/-- `std::regex_match(s, pattern)`. -/
def regex_match (s : String) (pattern : List RegexItem) : Bool :=
  matchItems pattern s.data

/-- `std::regex` as the program uses it: constructing a pattern from a string
either throws `std::regex_error` (`none`) or gives the pattern, taken as the
set of strings `std::regex_match` accepts.  The handlers take the engine as a
parameter, so what is proved of them holds for the whole ECMAScript grammar. -/
abbrev RegexEngine := String → Option (String → Bool)

/-- The engine restricted to the fragment above: on a pattern of the fragment
it is `std::regex`; a pattern outside the fragment is not to be run on it. -/
def ecmaFragment : RegexEngine :=
  fun pattern => (parseRegex pattern).map (fun items s => regex_match s items)

/-! ## Output and outcomes -/

/-- A line written to standard output.  The lines that list a directory entry
keep the printed fields apart: the rendering of a time stamp depends on the
locale. -/
inductive Line
  | text (s : String)
  | name (filename : String)
  | longFile (perms : String) (mtime : Nat) (size : Nat) (filename : String)
  | directory (filename : String)
deriving DecidableEq

/-- Why a handler did not return: a `fs::filesystem_error` left it (no enclosing
`try`), or the `std::regex_error` of a pattern that could not be constructed
(no handler catches it). -/
inductive Stop
  | uncaught (e : filesystem_error)
  | regex_error (pattern : String)
deriving DecidableEq

/-- What running a handler gives: the file system it leaves and the lines it
printed, or the reason it did not return. -/
abbrev Outcome := Except Stop (FileSystem × List Line)

/-- The nesting bound handed to `fs.copy`. -/
def copyFuel (σ : FileSystem) : Nat := σ.entries.length + 1

/-! ## `CdCommand` -/

/-- The lines `cd --help` prints. -/
def CdCommand.helpLines : List Line :=
  [ .text "----------------------",
    .text "       cd / - Change current directory to the root directory.",
    .text "       cd .. - Move up one directory from the current location.",
    .text "       cd \"dir\" - Change current directory to the specified directory named \"dir\".",
    .text "       cd --help - Shows help message." ]

/-- `CdCommand::execute`.  None of its library calls is inside a `try`. -/
def CdCommand.execute (args : List String) (σ : FileSystem) : Outcome :=
  if args.length < 2 then .ok (σ, [.text "Usage: cd <directory>"])
  else
    let target := args.getD 1 ""
    if target = "--help" then .ok (σ, CdCommand.helpLines)
    else if target = "/" then
      match fs.current_path σ with
      | .error e => .error (.uncaught e)
      | .ok p =>
        match fs.set_current_path σ (root_path p) with
        | .error e => .error (.uncaught e)
        | .ok σ1 => .ok (σ1, [])
    else if target = ".." then
      match fs.current_path σ with
      | .error e => .error (.uncaught e)
      | .ok p =>
        match fs.set_current_path σ (parent_path p) with
        | .error e => .error (.uncaught e)
        | .ok σ1 => .ok (σ1, [])
    else
      match fs.pathExists σ target with
      | .error e => .error (.uncaught e)
      | .ok false => .ok (σ, [.text "Directory doesn't exist or is not accessible."])
      | .ok true =>
        match fs.is_directory σ target with
        | .error e => .error (.uncaught e)
        | .ok false => .ok (σ, [.text "Directory doesn't exist or is not accessible."])
        | .ok true =>
          match fs.set_current_path σ target with
          | .error e => .error (.uncaught e)
          | .ok σ1 => .ok (σ1, [])

/-! ## `MvCommand` -/

/-- How the option loop of `mv` ends: at `--help`, at an unknown option, or at
the first argument that does not start with `-`, with the flags seen and the
arguments that remain (those from `argIndex` on). -/
inductive MvParse
  | help
  | unknown (option : String)
  | done (interactive force recursive : Bool) (rest : List String)
deriving DecidableEq

/-- The option loop of `MvCommand::execute`
(`while (argIndex < args.size() && args[argIndex][0] == '-')`), run on the
arguments from index 1 on. -/
def MvCommand.parseOptions : List String → Bool → Bool → Bool → MvParse
  | [], interactive, force, recursive => .done interactive force recursive []
  | a :: rest, interactive, force, recursive =>
    if a.data.head? = some '-' then
      if a = "-i" then MvCommand.parseOptions rest true force recursive
      else if a = "-f" then MvCommand.parseOptions rest interactive true recursive
      else if a = "-R" then MvCommand.parseOptions rest interactive force true
      else if a = "--help" then .help
      else .unknown a
    else .done interactive force recursive (a :: rest)

/-- The lines `mv --help` prints. -/
def MvCommand.helpLines : List Line :=
  [ .text "Usage: mv [OPTION] <source> <destination>",
    .text "Options:",
    .text "  -i    Interactive: Prompt before overwrite",
    .text "  -f    Force: Overwrite without prompt",
    .text "  -R    Recursive: Move directories recursively",
    .text "  --help    Display this help and exit" ]

/-- The line `mv` prints when it refuses to replace the destination. -/
def MvCommand.conflictLine : Line :=
  .text "Destination file exists. Use -f to force or -i for interactive move."

/-- The line `mv` prints for a caught error. -/
def MvCommand.errorLine (e : filesystem_error) : Line :=
  .text ("Error moving/renaming file/directory: " ++ e.what)

/-- The rename branch of `MvCommand::execute`. -/
def MvCommand.renameTo (σ : FileSystem) (source destination : String) : FileSystem × List Line :=
  match fs.rename σ source destination with
  | (σ1, some e) => (σ1, [MvCommand.errorLine e])
  | (σ1, none) => (σ1, [.text ("Successfully moved " ++ source ++ " to " ++ destination)])

/-- The `try` block of `MvCommand::execute`; an exception thrown in it is
caught and printed.  In `force || (!fs::exists(destination) || interactive)`
the destination is looked up only when `force` is not set. -/
def MvCommand.move (σ : FileSystem) (interactive force recursive : Bool)
    (source destination : String) : FileSystem × List Line :=
  match fs.is_directory σ source with
  | .error e => (σ, [MvCommand.errorLine e])
  | .ok isDir =>
    if isDir && recursive then
      match fs.copy (copyFuel σ) σ source destination .recursive with
      | (σ1, some e) => (σ1, [MvCommand.errorLine e])
      | (σ1, none) =>
        match fs.remove_all σ1 source with
        | (σ2, some e) => (σ2, [MvCommand.errorLine e])
        | (σ2, none) =>
          (σ2, [.text ("Successfully moved directory " ++ source ++ " to " ++ destination)])
    else if force then MvCommand.renameTo σ source destination
    else
      match fs.pathExists σ destination with
      | .error e => (σ, [MvCommand.errorLine e])
      | .ok destinationExists =>
        if !destinationExists || interactive then MvCommand.renameTo σ source destination
        else (σ, [MvCommand.conflictLine])

/-- `MvCommand::execute`. -/
def MvCommand.execute (args : List String) (σ : FileSystem) : Outcome :=
  if args.isEmpty then .ok (σ, [.text "Usage: mv <options> <source> <destination>"])
  else
    match MvCommand.parseOptions (args.drop 1) false false false with
    | .help => .ok (σ, MvCommand.helpLines)
    | .unknown option => .ok (σ, [.text ("Unknown option: " ++ option)])
    | .done interactive force recursive rest =>
      if rest.length ≠ 2 then .ok (σ, [.text "Usage: mv <source> <destination>"])
      else
        let source := rest.getD 0 ""
        let destination := rest.getD 1 ""
        match fs.pathExists σ source with
        | .error e => .error (.uncaught e)
        | .ok false => .ok (σ, [.text "Source file/directory does not exist."])
        | .ok true => .ok (MvCommand.move σ interactive force recursive source destination)

/-! ## `RmCommand` -/

/-- The variables of `RmCommand::execute` while it goes through its arguments,
with the file system and the lines printed so far. -/
structure RmState where
  recursive : Bool
  help : Bool
  extension : String
  σ : FileSystem
  out : List Line
deriving DecidableEq

/-- The loop body of `removeEmptyDirectories`, over the entries of the working
directory. -/
def RmCommand.sweepEmpty : FileSystem → List Line → List String →
    Except Stop (FileSystem × List Line)
  | σ, out, [] => .ok (σ, out)
  | σ, out, entry :: rest =>
    match fs.is_directory σ entry with
    | .error e => .error (.uncaught e)
    | .ok false => RmCommand.sweepEmpty σ out rest
    | .ok true =>
      match fs.is_empty σ entry with
      | .error e => .error (.uncaught e)
      | .ok false => RmCommand.sweepEmpty σ out rest
      | .ok true =>
        match fs.remove σ entry with
        | (_, some e) => .error (.uncaught e)
        | (σ1, none) =>
          RmCommand.sweepEmpty σ1 (out ++ [.text ("Directory '" ++ entry ++ "' removed.")]) rest

/-- `RmCommand::removeEmptyDirectories`; called outside any `try`. -/
def RmCommand.removeEmptyDirectories (σ : FileSystem) (out : List Line) :
    Except Stop (FileSystem × List Line) :=
  match fs.current_path σ with
  | .error e => .error (.uncaught e)
  | .ok cwd =>
    match fs.directory_iterator σ cwd with
    | .error e => .error (.uncaught e)
    | .ok entries => RmCommand.sweepEmpty σ out entries

/-- The loop body of `removeFilesWithExtension`, over the entries of the
working directory; `pattern` is the constructed `std::regex`. -/
def RmCommand.sweepExtension (pattern : String → Bool) : FileSystem → List Line → List String →
    Except Stop (FileSystem × List Line)
  | σ, out, [] => .ok (σ, out)
  | σ, out, entry :: rest =>
    match fs.is_regular_file σ entry with
    | .error e => .error (.uncaught e)
    | .ok isFile =>
      if isFile && pattern (filename entry) then
        match fs.remove σ entry with
        | (_, some e) => .error (.uncaught e)
        | (σ1, none) =>
          RmCommand.sweepExtension pattern σ1
            (out ++ [.text ("File '" ++ entry ++ "' removed.")]) rest
      else RmCommand.sweepExtension pattern σ out rest

/-- `RmCommand::removeFilesWithExtension`: the pattern is
`".*\\." + extension + "$"`; called outside any `try`. -/
def RmCommand.removeFilesWithExtension (regex : RegexEngine) (extension : String)
    (σ : FileSystem) (out : List Line) : Except Stop (FileSystem × List Line) :=
  match regex (".*\\." ++ extension ++ "$") with
  | none => .error (.regex_error (".*\\." ++ extension ++ "$"))
  | some pattern =>
    match fs.current_path σ with
    | .error e => .error (.uncaught e)
    | .ok cwd =>
      match fs.directory_iterator σ cwd with
      | .error e => .error (.uncaught e)
      | .ok entries => RmCommand.sweepExtension pattern σ out entries

/-- Whether `rm` takes an argument for an extension pattern
(`option.length() > 1 && option[0] == '*' && option.find('.') != npos`). -/
def RmCommand.isExtensionPattern (option : String) : Bool :=
  decide (option.length > 1) && option.data.head? = some '*' && option.data.contains '.'

/-- The line `rm` prints for a path that does not exist. -/
def RmCommand.missingLine (p : String) : Line :=
  .text ("File/directory '" ++ p ++ "' does not exist.")

/-- The line `rm` prints for a file it removed. -/
def RmCommand.removedLine (p : String) : Line :=
  .text ("File '" ++ p ++ "' removed.")

/-- The line `rm` prints for a caught error. -/
def RmCommand.errorLine (p : String) (e : filesystem_error) : Line :=
  .text ("Error removing file/directory '" ++ p ++ "': " ++ e.what)

/-- The `try` block of `RmCommand::execute` for the path `p`; an exception
thrown in it is caught and printed. -/
def RmCommand.removePath (σ : FileSystem) (recursive : Bool) (p : String) : FileSystem × Line :=
  match fs.is_directory σ p with
  | .error e => (σ, RmCommand.errorLine p e)
  | .ok true =>
    if recursive then
      match fs.remove_all σ p with
      | (σ1, some e) => (σ1, RmCommand.errorLine p e)
      | (σ1, none) => (σ1, .text ("Directory '" ++ p ++ "' and its contents removed."))
    else (σ, .text ("Cannot remove directory '" ++ p ++ "'. Use -R to remove directories."))
  | .ok false =>
    match fs.remove σ p with
    | (σ1, some e) => (σ1, RmCommand.errorLine p e)
    | (σ1, none) => (σ1, RmCommand.removedLine p)

/-- One turn of the argument loop of `RmCommand::execute`.  `fs::exists` is
called before the `try` block. -/
def RmCommand.step (regex : RegexEngine) (st : RmState) (option : String) :
    Except Stop RmState :=
  if option = "-R" then .ok { st with recursive := true }
  else if option = "-d" then
    match RmCommand.removeEmptyDirectories st.σ st.out with
    | .error e => .error e
    | .ok (σ1, out1) => .ok { st with σ := σ1, out := out1 }
  else if option = "--help" then .ok { st with help := true }
  else if RmCommand.isExtensionPattern option then
    match RmCommand.removeFilesWithExtension regex (String.mk (option.data.drop 1))
        st.σ st.out with
    | .error e => .error e
    | .ok (σ1, out1) =>
      .ok { st with extension := String.mk (option.data.drop 1), σ := σ1, out := out1 }
  else
    match fs.pathExists st.σ option with
    | .error e => .error (.uncaught e)
    | .ok false => .ok { st with out := st.out ++ [RmCommand.missingLine option] }
    | .ok true =>
      .ok { st with σ := (RmCommand.removePath st.σ st.recursive option).1,
                    out := st.out ++ [(RmCommand.removePath st.σ st.recursive option).2] }

/-- The argument loop of `RmCommand::execute`, over the arguments from index 1
on. -/
def RmCommand.loop (regex : RegexEngine) : RmState → List String → Except Stop RmState
  | st, [] => .ok st
  | st, option :: rest =>
    match RmCommand.step regex st option with
    | .error e => .error e
    | .ok st1 => RmCommand.loop regex st1 rest

/-- The lines `rm` prints at the end when it has seen `--help`. -/
def RmCommand.helpLines : List Line :=
  [ .text "Usage: rm <file1> [file2 ...]",
    .text "Options:",
    .text "-R: Remove directories and their contents recursively",
    .text "-d: Remove only empty directories",
    .text "--help: Show help message",
    .text "*extension: Remove files with the specified extension" ]

/-- `RmCommand::execute`. -/
def RmCommand.execute (regex : RegexEngine) (args : List String) (σ : FileSystem) : Outcome :=
  if args.length < 2 then .ok (σ, [.text "Usage: rm <file1> [file2 ...]"])
  else
    match RmCommand.loop regex ⟨false, false, "", σ, []⟩ (args.drop 1) with
    | .error e => .error e
    | .ok st => .ok (st.σ, if st.help then st.out ++ RmCommand.helpLines else st.out)

/-! ## `LsCommand` -/

/-- The flags of `ls`. -/
structure LsFlags where
  show_help : Bool
  recursive : Bool
  long_format : Bool
  reverse_order : Bool
deriving DecidableEq

/-- The option loop of `LsCommand::execute`, over the arguments from index 1
on. -/
def LsCommand.parseOptions : List String → LsFlags → LsFlags
  | [], f => f
  | a :: rest, f =>
    if a = "-r" then LsCommand.parseOptions rest { f with reverse_order := true }
    else if a = "-l" then LsCommand.parseOptions rest { f with long_format := true }
    else if a = "-R" then LsCommand.parseOptions rest { f with recursive := true }
    else if a = "--help" then LsCommand.parseOptions rest { f with show_help := true }
    else LsCommand.parseOptions rest f

/-- The flags `ls` parses from its arguments. -/
def LsCommand.flags (args : List String) : LsFlags :=
  LsCommand.parseOptions (args.drop 1) ⟨false, false, false, false⟩

/-- The lines `ls --help` prints. -/
def LsCommand.helpLines : List Line :=
  [ .text "-----------------",
    .text "-r: Reverse the order of listing",
    .text "-l: Use a long listing format",
    .text "-R: List subdirectories recursively",
    .text "--help: Show help message" ]

/-- `LsCommand::printPermissions`: the nine characters for the permission
bits. -/
def LsCommand.printPermissions (p : Nat) : String :=
  (if p &&& 0o400 ≠ 0 then "r" else "-") ++
  (if p &&& 0o200 ≠ 0 then "w" else "-") ++
  (if p &&& 0o100 ≠ 0 then "x" else "-") ++
  (if p &&& 0o040 ≠ 0 then "r" else "-") ++
  (if p &&& 0o020 ≠ 0 then "w" else "-") ++
  (if p &&& 0o010 ≠ 0 then "x" else "-") ++
  (if p &&& 0o004 ≠ 0 then "r" else "-") ++
  (if p &&& 0o002 ≠ 0 then "w" else "-") ++
  (if p &&& 0o001 ≠ 0 then "x" else "-")

/-- `LsCommand::printEntry`: the line for one entry.  `fs::last_write_time`
throws for an entry that no longer exists. -/
def LsCommand.printEntry (σ : FileSystem) (entry : String) (long_format : Bool) :
    Except filesystem_error Line :=
  if long_format then
    match stat σ entry with
    | some Node.dir => .ok (.directory (filename entry))
    | some (Node.file content perms mtime) =>
      .ok (.longFile (LsCommand.printPermissions perms) mtime content.length (filename entry))
    | none => .error ⟨"cannot get file time", .no_such_file_or_directory, [entry]⟩
  else .ok (.name (filename entry))

/-- The last loop of `LsCommand::execute`: print every collected entry. -/
def LsCommand.printAll (σ : FileSystem) (long_format : Bool) : List String → Except Stop (List Line)
  | [] => .ok []
  | entry :: rest =>
    match LsCommand.printEntry σ entry long_format with
    | .error e => .error (.uncaught e)
    | .ok line =>
      match LsCommand.printAll σ long_format rest with
      | .error e => .error e
      | .ok lines => .ok (line :: lines)

/-- The entries `ls` collects: the working directory, enumerated recursively
under `-R`. -/
def LsCommand.collect (σ : FileSystem) (recursive : Bool) : Except filesystem_error (List String) :=
  match fs.current_path σ with
  | .error e => .error e
  | .ok cwd =>
    if recursive then fs.recursive_directory_iterator σ cwd
    else fs.directory_iterator σ cwd

/-- `LsCommand::execute`.  None of its library calls is inside a `try`. -/
def LsCommand.execute (args : List String) (σ : FileSystem) : Outcome :=
  let f := LsCommand.flags args
  if f.show_help then .ok (σ, LsCommand.helpLines)
  else
    match LsCommand.collect σ f.recursive with
    | .error e => .error (.uncaught e)
    | .ok entries =>
      match LsCommand.printAll σ f.long_format
          (if f.reverse_order then entries.reverse else entries) with
      | .error e => .error e
      | .ok lines => .ok (σ, lines)

/-! ## `CpCommand` -/

/-- The variables the option loop of `cp` sets. -/
structure CpArgs where
  recursive : Bool
  help : Bool
  showVersion : Bool
  backup : Bool
  source : String
  destination : String
deriving DecidableEq

/-- The option loop of `CpCommand::execute`, over the arguments from index 1
on. -/
def CpCommand.parseOptions : List String → CpArgs → CpArgs
  | [], a => a
  | option :: rest, a =>
    if option = "-r" then CpCommand.parseOptions rest { a with recursive := true }
    else if option = "--help" then CpCommand.parseOptions rest { a with help := true }
    else if option = "--version" then CpCommand.parseOptions rest { a with showVersion := true }
    else if option = "-b" then CpCommand.parseOptions rest { a with backup := true }
    else if a.source = "" then CpCommand.parseOptions rest { a with source := option }
    else if a.destination = "" then CpCommand.parseOptions rest { a with destination := option }
    else CpCommand.parseOptions rest a

/-- `CpCommand::displayHelp`. -/
def CpCommand.displayHelp : List Line :=
  [ .text "Options:",
    .text "-r: Copy directories and their contents recursively",
    .text "-b: Create backups of existing files",
    .text "--help: Show help message",
    .text "--version: Show version information" ]

/-- The line `cp` prints for a caught error. -/
def CpCommand.errorLine (e : filesystem_error) : Line :=
  .text ("Error copying file/directory: " ++ e.what)

/-- The line `cp` prints after copying a file. -/
def CpCommand.copiedLine (source destination : String) : Line :=
  .text ("Successfully copied file '" ++ source ++ "' to '" ++ destination ++ "'.")

/-- The directory branch of the `try` block of `CpCommand::execute`: create the
destination if absent, then
`fs::copy(entry, destination / entry.path().filename(), overwrite_existing)`
for every entry of the recursive traversal of the source. -/
def CpCommand.copyDirectory (σ : FileSystem) (source destination : String) :
    FileSystem × List Line :=
  match (match fs.pathExists σ destination with
         | .error e => (σ, some e)
         | .ok false => fs.create_directory σ destination
         | .ok true => (σ, none)) with
  | (σ1, some e) => (σ1, [CpCommand.errorLine e])
  | (σ1, none) =>
    match fs.recursive_directory_iterator σ1 source with
    | .error e => (σ1, [CpCommand.errorLine e])
    | .ok entries =>
      match fs.copyEach
          (fun σ2 entry =>
            fs.copy (copyFuel σ2) σ2 entry (pathAppend destination (filename entry))
              .overwrite_existing)
          σ1 entries with
      | (σ3, some e) => (σ3, [CpCommand.errorLine e])
      | (σ3, none) =>
        (σ3, [.text ("Successfully copied directory '" ++ source ++ "' to '" ++
                destination ++ "'.")])

/-- The file branch of the `try` block of `CpCommand::execute`. -/
def CpCommand.copyFile (σ : FileSystem) (backup : Bool) (source destination : String) :
    FileSystem × List Line :=
  if backup then
    match fs.pathExists σ destination with
    | .error e => (σ, [CpCommand.errorLine e])
    | .ok true =>
      match fs.copy_file σ destination (destination ++ "~") true with
      | (σ1, some e) => (σ1, [CpCommand.errorLine e])
      | (σ1, none) =>
        match fs.copy_file σ1 source destination true with
        | (σ2, some e) =>
          (σ2, [.text ("Created backup file: " ++ destination ++ "~"), CpCommand.errorLine e])
        | (σ2, none) =>
          (σ2, [.text ("Created backup file: " ++ destination ++ "~"),
                CpCommand.copiedLine source destination])
    | .ok false =>
      match fs.copy_file σ source destination true with
      | (σ1, some e) => (σ1, [CpCommand.errorLine e])
      | (σ1, none) => (σ1, [CpCommand.copiedLine source destination])
  else
    match fs.copy_file σ source destination true with
    | (σ1, some e) => (σ1, [CpCommand.errorLine e])
    | (σ1, none) => (σ1, [CpCommand.copiedLine source destination])

/-- `CpCommand::execute`. -/
def CpCommand.execute (args : List String) (σ : FileSystem) : Outcome :=
  let a := CpCommand.parseOptions (args.drop 1) ⟨false, false, false, false, "", ""⟩
  if a.showVersion then .ok (σ, [.text "cp (Version 1.0)"])
  else if a.help || a.source = "" || a.destination = "" then .ok (σ, CpCommand.displayHelp)
  else
    match fs.pathExists σ a.source with
    | .error e => .error (.uncaught e)
    | .ok false => .ok (σ, [.text "Source file does not exist."])
    | .ok true =>
      match fs.is_directory σ a.source with
      | .error e => .ok (σ, [CpCommand.errorLine e])
      | .ok true =>
        if a.recursive then .ok (CpCommand.copyDirectory σ a.source a.destination)
        else .ok (σ, [.text "Use -r option to copy directories recursively."])
      | .ok false => .ok (CpCommand.copyFile σ a.backup a.source a.destination)

/-! ## `Shell` -/

/-- Stream extraction of strings (`std::istream_iterator<std::string>`), one
character at a time: white space ends the token being read (`cur`), any other
character extends it; the end of the input ends the last token. -/
def Shell.extract : List Char → List Char → List String
  | [], cur => if cur = [] then [] else [String.mk cur]
  | c :: cs, cur =>
    if isspace c then
      (if cur = [] then Shell.extract cs [] else String.mk cur :: Shell.extract cs [])
    else Shell.extract cs (cur ++ [c])

/-- `Shell::splitCommand`. -/
def Shell.splitCommand (command : String) : List String :=
  Shell.extract command.data []

/-- `Shell::executeCommand`. -/
def Shell.executeCommand (regex : RegexEngine) (command : String) (σ : FileSystem) :
    Outcome :=
  let args := Shell.splitCommand command
  if args.isEmpty then .ok (σ, [.text "No command entered."])
  else
    let cmd := tolower (args.getD 0 "")
    if cmd = "cd" then
      if args.length ≠ 2 then .ok (σ, [.text "Usage: cd <directory>"])
      else CdCommand.execute args σ
    else if cmd = "mv" then MvCommand.execute args σ
    else if cmd = "rm" then RmCommand.execute regex args σ
    else if cmd = "ls" then LsCommand.execute args σ
    else if cmd = "cp" then CpCommand.execute args σ
    else .ok (σ, [.text "Command not recognized."])

/-! ## Definitions used to state the properties -/

deriving instance DecidableEq for Except

/-- The tokenizer as the specification words it: split the line at white space
and drop the empty pieces. -/
def whitespaceDelimitedTokens (line : String) : List String :=
  ((line.data.splitOnP isspace).filter (fun t => t ≠ [])).map String.mk

/-- The state used to show that `cd` with three tokens is answered by the
dispatcher itself: a root directory holding the directory `d`. -/
def dispatchState : FileSystem :=
  { entries := [(["d"], Node.dir)], cwd := [], now := 0 }

/-- The tokens `cp` takes as source or destination: those that are not one of
its flags (an empty token is never stored). -/
def CpCommand.operands (l : List String) : List String :=
  l.filter (fun o => o ≠ "-r" ∧ o ≠ "--help" ∧ o ≠ "--version" ∧ o ≠ "-b" ∧ o ≠ "")

/-- A file system with one regular file in the working directory. -/
def helpState : FileSystem :=
  { entries := [(["real.txt"], Node.file "data" 0o644 1)], cwd := [], now := 5 }

/-- A root directory holding the directory `A` with one file and the empty
directory `B`. -/
def mvState : FileSystem :=
  { entries := [(["A"], Node.dir), (["A", "f"], Node.file "data" 0o644 1), (["B"], Node.dir)],
    cwd := [], now := 5 }

/-- A working directory (the root) with the directory `S`, which holds the
file `top.txt` and the directory `sub` with the file `x.txt`. -/
def copyState : FileSystem :=
  { entries := [(["S"], Node.dir), (["S", "top.txt"], Node.file "top" 0o644 1),
                (["S", "sub"], Node.dir), (["S", "sub", "x.txt"], Node.file "hello" 0o644 2)],
    cwd := [], now := 5 }

/-- The file system `cp -r S D` leaves when run on `copyState`. -/
def copiedState : FileSystem :=
  { copyState with
    entries := copyState.entries ++
      [(["D"], Node.dir), (["D", "top.txt"], Node.file "top" 0o644 5),
       (["D", "x.txt"], Node.file "hello" 0o644 5)] }

/-- A working directory (the root) with a file whose name ends in `.txt`, a
file whose name only contains `txt` after a dot, and a file without
extension. -/
def extensionState : FileSystem :=
  { entries := [(["a.txt"], Node.file "A" 0o644 1), (["notes.xtxt"], Node.file "N" 0o644 2),
                (["txt"], Node.file "T" 0o644 3)],
    cwd := [], now := 5 }

/-- The process is in the directory `/d`, which holds one file. -/
def uncaughtState : FileSystem :=
  { entries := [(["d"], Node.dir), (["d", "f"], Node.file "data" 0o644 1)],
    cwd := ["d"], now := 5 }

/-- The process is in the directory `/d`; the root also holds the regular file
`real.txt`. -/
def sweepState : FileSystem :=
  { entries := [(["d"], Node.dir), (["real.txt"], Node.file "data" 0o644 1)],
    cwd := ["d"], now := 5 }

/-- A file name of 256 characters, one more than `NAME_MAX`. -/
def longName : String := String.mk (List.replicate 256 'a')

/-! ## The tokenizer -/

theorem extract_eq (cs cur : List Char) :
    Shell.extract cs cur =
      (((cs.splitOnP isspace).modifyHead (fun t => cur ++ t)).filter (fun t => t ≠ [])).map
        String.mk := by
  induction cs generalizing cur with
  | nil =>
    by_cases h : cur = [] <;> simp [Shell.extract, List.splitOnP_nil, h]
  | cons c cs ih =>
    rw [Shell.extract, List.splitOnP_cons]
    by_cases hc : isspace c = true
    · simp only [hc, if_true]
      rw [ih []]
      by_cases h : cur = []
      · simp [h]
        cases List.splitOnP isspace cs <;> simp
      · simp [h]
        cases List.splitOnP isspace cs <;> simp
    · simp only [hc, if_false]
      rw [ih (cur ++ [c])]
      cases List.splitOnP isspace cs <;> simp

theorem mk_ne_empty (cur : List Char) (h : cur ≠ []) : String.mk cur ≠ "" := by
  intro h2
  apply h
  simpa using congrArg String.data h2

theorem extract_tokens (cs cur : List Char) (hcur : ∀ c ∈ cur, isspace c = false) :
    ∀ t ∈ Shell.extract cs cur, t ≠ "" ∧ ∀ c ∈ t.data, isspace c = false := by
  induction cs generalizing cur with
  | nil =>
    intro t ht
    by_cases h : cur = []
    · simp [Shell.extract, h] at ht
    · simp [Shell.extract, h] at ht
      subst ht
      exact ⟨mk_ne_empty cur h, hcur⟩
  | cons c cs ih =>
    intro t ht
    rw [Shell.extract] at ht
    by_cases hc : isspace c = true
    · simp only [hc, if_true] at ht
      by_cases h : cur = []
      · simp only [h, if_true] at ht
        exact ih [] (by simp) t ht
      · simp only [h, if_false, List.mem_cons] at ht
        rcases ht with ht | ht
        · subst ht
          exact ⟨mk_ne_empty cur h, hcur⟩
        · exact ih [] (by simp) t ht
    · simp only [hc, if_false] at ht
      refine ih (cur ++ [c]) ?_ t ht
      intro d hd
      rcases List.mem_append.1 hd with hd | hd
      · exact hcur d hd
      · simp at hd
        subst hd
        simpa using hc

theorem extract_nil_iff (cs cur : List Char) :
    Shell.extract cs cur = [] ↔ cur = [] ∧ ∀ c ∈ cs, isspace c = true := by
  induction cs generalizing cur with
  | nil => by_cases h : cur = [] <;> simp [Shell.extract, h]
  | cons c cs ih =>
    rw [Shell.extract]
    by_cases hc : isspace c = true
    · by_cases h : cur = []
      · simp [hc, h, ih]
      · simp [hc, h]
    · simp [hc, ih]

/-- C7.  `splitCommand` returns the white-space-delimited pieces of the line
with the empty ones dropped, in order: it equals the specification's
tokenizer, no token is empty or contains white space, the result is empty
exactly when the line is empty or all white space, and `executeCommand` then
prints "No command entered." and leaves the file system as it is (no handler
runs). -/
theorem splitCommand_whitespace_delimited (regex : RegexEngine) (command : String)
    (σ : FileSystem) :
    Shell.splitCommand command = whitespaceDelimitedTokens command ∧
    (∀ t ∈ Shell.splitCommand command, t ≠ "" ∧ ∀ c ∈ t.data, isspace c = false) ∧
    (Shell.splitCommand command = [] ↔ ∀ c ∈ command.data, isspace c = true) ∧
    ((∀ c ∈ command.data, isspace c = true) →
      Shell.executeCommand regex command σ = .ok (σ, [.text "No command entered."])) := by
  refine ⟨?_, ?_, ?_, ?_⟩
  · rw [Shell.splitCommand, extract_eq, whitespaceDelimitedTokens]
    congr 2
    cases List.splitOnP isspace command.data <;> simp
  · exact extract_tokens command.data [] (by simp)
  · rw [Shell.splitCommand, extract_nil_iff]
    simp
  · intro h
    have h0 : Shell.splitCommand command = [] := by
      rw [Shell.splitCommand, extract_nil_iff]
      exact ⟨rfl, h⟩
    simp [Shell.executeCommand, h0]

/-- C7 on the lines `" \t  "` and `"  mv  a.txt\tb "`. -/
theorem splitCommand_whitespace_delimited_witness :
    (∀ c ∈ (" \t  " : String).data, isspace c = true) ∧
    Shell.splitCommand "  mv  a.txt\tb " = ["mv", "a.txt", "b"] ∧
    Shell.executeCommand ecmaFragment " \t  " ⟨[], [], 0⟩ = .ok (⟨[], [], 0⟩, [.text "No command entered."]) :=
  ⟨by decide, by decide,
    (splitCommand_whitespace_delimited ecmaFragment " \t  " ⟨[], [], 0⟩).2.2.2 (by decide)⟩

/-! ## The dispatcher -/

/-- C8, as stated, fails: the first token of `cd d x` folds to `cd`, yet the
dispatcher prints the usage line itself and runs no handler, whereas
`CdCommand::execute` on the same tokens changes the working directory to
`d`. -/
theorem executeCommand_cd_three_tokens_not_routed :
    dispatchState.wellFormed = true ∧
    tolower ((Shell.splitCommand "cd d x").getD 0 "") = "cd" ∧
    Shell.executeCommand ecmaFragment "cd d x" dispatchState =
      .ok (dispatchState, [.text "Usage: cd <directory>"]) ∧
    CdCommand.execute (Shell.splitCommand "cd d x") dispatchState =
      .ok ({ dispatchState with cwd := ["d"] }, []) ∧
    Shell.executeCommand ecmaFragment "cd d x" dispatchState ≠
      CdCommand.execute (Shell.splitCommand "cd d x") dispatchState := by
  refine ⟨by decide, by decide, by decide, by decide, by decide⟩

/-- C8, amended.  For a line with at least one token, `executeCommand`
lower-cases the first token and compares it with the five verbs.  For `mv`,
`rm`, `ls` and `cp` it runs that handler, and only that one, on the unchanged
token sequence.  For `cd` it runs `CdCommand::execute` on the unchanged tokens
when there are exactly two of them, and otherwise prints the `cd` usage line
and leaves the file system as it is.  For any other first token it prints
"Command not recognized." and leaves the file system as it is. -/
theorem executeCommand_routes (regex : RegexEngine) (command : String) (σ : FileSystem)
    (hne : Shell.splitCommand command ≠ []) :
    let args := Shell.splitCommand command
    let cmd := tolower (args.getD 0 "")
    (cmd = "cd" → args.length = 2 → Shell.executeCommand regex command σ = CdCommand.execute args σ) ∧
    (cmd = "cd" → args.length ≠ 2 →
      Shell.executeCommand regex command σ = .ok (σ, [.text "Usage: cd <directory>"])) ∧
    (cmd = "mv" → Shell.executeCommand regex command σ = MvCommand.execute args σ) ∧
    (cmd = "rm" → Shell.executeCommand regex command σ = RmCommand.execute regex args σ) ∧
    (cmd = "ls" → Shell.executeCommand regex command σ = LsCommand.execute args σ) ∧
    (cmd = "cp" → Shell.executeCommand regex command σ = CpCommand.execute args σ) ∧
    (cmd ≠ "cd" → cmd ≠ "mv" → cmd ≠ "rm" → cmd ≠ "ls" → cmd ≠ "cp" →
      Shell.executeCommand regex command σ = .ok (σ, [.text "Command not recognized."])) := by
  have h0 : (Shell.splitCommand command).isEmpty = false := by
    cases h : Shell.splitCommand command with
    | nil => exact absurd h hne
    | cons a as => rfl
  refine ⟨?_, ?_, ?_, ?_, ?_, ?_, ?_⟩
  · intro h1 h2
    simp only [Shell.executeCommand, h0, h1, h2]
    simp
  · intro h1 h2
    simp only [Shell.executeCommand, h0, h1]
    simp [h2]
  · intro h1
    simp only [Shell.executeCommand, h0, h1]
    simp
  · intro h1
    simp only [Shell.executeCommand, h0, h1]
    simp
  · intro h1
    simp only [Shell.executeCommand, h0, h1]
    simp
  · intro h1
    simp only [Shell.executeCommand, h0, h1]
    simp
  · intro h1 h2 h3 h4 h5
    simp only [Shell.executeCommand, h0, h1, h2, h3, h4, h5]
    simp

/-- C8 (amended) on the line `RM a.txt`. -/
theorem executeCommand_routes_witness :
    Shell.splitCommand "RM a.txt" ≠ [] ∧
    tolower ((Shell.splitCommand "RM a.txt").getD 0 "") = "rm" ∧
    Shell.executeCommand ecmaFragment "RM a.txt" dispatchState =
      RmCommand.execute ecmaFragment ["RM", "a.txt"] dispatchState :=
  ⟨by decide, by decide,
    (executeCommand_routes ecmaFragment "RM a.txt" dispatchState (by decide)).2.2.2.1 (by decide)⟩

/-! ## `ls` -/

theorem ls_parse_help (l : List String) (f : LsFlags) :
    (LsCommand.parseOptions l f).show_help = (f.show_help || decide ("--help" ∈ l)) := by
  induction l generalizing f with
  | nil => simp [LsCommand.parseOptions]
  | cons a l ih =>
    rw [LsCommand.parseOptions]
    by_cases h1 : a = "-r"
    · subst h1; simp [ih]
    by_cases h2 : a = "-l"
    · subst h2; simp [ih]
    by_cases h3 : a = "-R"
    · subst h3; simp [ih]
    by_cases h4 : a = "--help"
    · subst h4; simp [ih]
    · simp [h1, h2, h3, h4, ih, Ne.symm h4]

theorem cp_parse_help (l : List String) (a : CpArgs) :
    (CpCommand.parseOptions l a).help = (a.help || decide ("--help" ∈ l)) := by
  induction l generalizing a with
  | nil => simp [CpCommand.parseOptions]
  | cons o l ih =>
    rw [CpCommand.parseOptions]
    by_cases h1 : o = "-r"
    · subst h1; simp [ih]
    by_cases h2 : o = "--help"
    · subst h2; simp [ih]
    by_cases h3 : o = "--version"
    · subst h3; simp [ih]
    by_cases h4 : o = "-b"
    · subst h4; simp [ih]
    simp only [h1, h2, h3, h4, if_false]
    split_ifs <;> simp [ih, Ne.symm h2]

theorem cp_parse_version (l : List String) (a : CpArgs) :
    (CpCommand.parseOptions l a).showVersion = (a.showVersion || decide ("--version" ∈ l)) := by
  induction l generalizing a with
  | nil => simp [CpCommand.parseOptions]
  | cons o l ih =>
    rw [CpCommand.parseOptions]
    by_cases h1 : o = "-r"
    · subst h1; simp [ih]
    by_cases h2 : o = "--help"
    · subst h2; simp [ih]
    by_cases h3 : o = "--version"
    · subst h3; simp [ih]
    by_cases h4 : o = "-b"
    · subst h4; simp [ih]
    simp only [h1, h2, h3, h4, if_false]
    split_ifs <;> simp [ih, Ne.symm h3]

theorem cp_operands_cons_flag (o : String) (l : List String)
    (h : o = "-r" ∨ o = "--help" ∨ o = "--version" ∨ o = "-b" ∨ o = "") :
    CpCommand.operands (o :: l) = CpCommand.operands l := by
  unfold CpCommand.operands
  rw [List.filter_cons_of_neg]
  simp only [decide_eq_true_eq]
  rintro ⟨h1, h2, h3, h4, h5⟩
  rcases h with h | h | h | h | h <;> contradiction

theorem cp_operands_cons_operand (o : String) (l : List String)
    (h1 : o ≠ "-r") (h2 : o ≠ "--help") (h3 : o ≠ "--version") (h4 : o ≠ "-b") (h5 : o ≠ "") :
    CpCommand.operands (o :: l) = o :: CpCommand.operands l := by
  unfold CpCommand.operands
  rw [List.filter_cons_of_pos]
  simp only [decide_eq_true_eq]
  exact ⟨h1, h2, h3, h4, h5⟩

theorem cp_parse_destination_empty (l : List String) (a : CpArgs)
    (hd : a.destination = "") (hl : CpCommand.operands l = []) (hs : a.source ≠ "") :
    (CpCommand.parseOptions l a).destination = "" := by
  induction l generalizing a with
  | nil => simpa [CpCommand.parseOptions] using hd
  | cons o l ih =>
    rw [CpCommand.parseOptions]
    by_cases h1 : o = "-r"
    · rw [cp_operands_cons_flag o l (Or.inl h1)] at hl
      simp only [h1, if_true]
      exact ih _ hd hl hs
    by_cases h2 : o = "--help"
    · rw [cp_operands_cons_flag o l (Or.inr (Or.inl h2))] at hl
      simp only [h2, if_true]
      exact ih _ hd hl hs
    by_cases h3 : o = "--version"
    · rw [cp_operands_cons_flag o l (Or.inr (Or.inr (Or.inl h3)))] at hl
      simp only [h3, if_true]
      exact ih _ hd hl hs
    by_cases h4 : o = "-b"
    · rw [cp_operands_cons_flag o l (Or.inr (Or.inr (Or.inr (Or.inl h4))))] at hl
      simp only [h4, if_true]
      exact ih _ hd hl hs
    by_cases h5 : o = ""
    · rw [cp_operands_cons_flag o l (Or.inr (Or.inr (Or.inr (Or.inr h5))))] at hl
      subst h5
      simp only [h1, h2, h3, h4, hs, hd, if_false, if_true]
      exact ih _ rfl hl hs
    · rw [cp_operands_cons_operand o l h1 h2 h3 h4 h5] at hl
      cases hl

theorem cp_parse_insufficient (l : List String) (a : CpArgs)
    (hs : a.source = "") (hd : a.destination = "") (hl : (CpCommand.operands l).length < 2) :
    (CpCommand.parseOptions l a).source = "" ∨ (CpCommand.parseOptions l a).destination = "" := by
  induction l generalizing a with
  | nil => exact Or.inl (by simpa [CpCommand.parseOptions] using hs)
  | cons o l ih =>
    rw [CpCommand.parseOptions]
    by_cases h1 : o = "-r"
    · rw [cp_operands_cons_flag o l (Or.inl h1)] at hl
      simp only [h1, if_true]
      exact ih _ hs hd hl
    by_cases h2 : o = "--help"
    · rw [cp_operands_cons_flag o l (Or.inr (Or.inl h2))] at hl
      simp only [h2, if_true]
      exact ih _ hs hd hl
    by_cases h3 : o = "--version"
    · rw [cp_operands_cons_flag o l (Or.inr (Or.inr (Or.inl h3)))] at hl
      simp only [h3, if_true]
      exact ih _ hs hd hl
    by_cases h4 : o = "-b"
    · rw [cp_operands_cons_flag o l (Or.inr (Or.inr (Or.inr (Or.inl h4))))] at hl
      simp only [h4, if_true]
      exact ih _ hs hd hl
    by_cases h5 : o = ""
    · rw [cp_operands_cons_flag o l (Or.inr (Or.inr (Or.inr (Or.inr h5))))] at hl
      subst h5
      simp only [h1, h2, h3, h4, hs, if_false, if_true]
      exact ih _ rfl hd hl
    · rw [cp_operands_cons_operand o l h1 h2 h3 h4 h5] at hl
      simp only [h1, h2, h3, h4, hs, if_false, if_true]
      right
      refine cp_parse_destination_empty l _ hd ?_ h5
      have : (CpCommand.operands l).length = 0 := by
        simp only [List.length_cons] at hl
        omega
      exact List.length_eq_zero.1 this

theorem mv_parse_leading_flags (pre l : List String) (i f r : Bool)
    (hpre : ∀ a ∈ pre, a = "-i" ∨ a = "-f" ∨ a = "-R") :
    ∃ i1 f1 r1, MvCommand.parseOptions (pre ++ l) i f r = MvCommand.parseOptions l i1 f1 r1 := by
  induction pre generalizing i f r with
  | nil => exact ⟨i, f, r, rfl⟩
  | cons a pre ih =>
    have hpre1 : ∀ b ∈ pre, b = "-i" ∨ b = "-f" ∨ b = "-R" :=
      fun b hb => hpre b (List.mem_cons_of_mem _ hb)
    rcases hpre a (List.mem_cons_self _ _) with h | h | h
    · subst h
      obtain ⟨i1, f1, r1, h1⟩ := ih true f r hpre1
      exact ⟨i1, f1, r1, by rw [← h1]; rfl⟩
    · subst h
      obtain ⟨i1, f1, r1, h1⟩ := ih i true r hpre1
      exact ⟨i1, f1, r1, by rw [← h1]; rfl⟩
    · subst h
      obtain ⟨i1, f1, r1, h1⟩ := ih i f true hpre1
      exact ⟨i1, f1, r1, by rw [← h1]; rfl⟩

theorem mv_parse_operands (rest : List String) (i f r : Bool)
    (h : ∀ a, rest.head? = some a → a.data.head? ≠ some '-') :
    MvCommand.parseOptions rest i f r = .done i f r rest := by
  cases rest with
  | nil => rfl
  | cons a rest =>
    rw [MvCommand.parseOptions]
    simp [h a rfl]

theorem rm_step_set_help (regex : RegexEngine) (st : RmState) (h : Bool) (o : String) :
    RmCommand.step regex { st with help := h } o =
      match RmCommand.step regex st o with
      | .error e => .error e
      | .ok s => .ok { s with help := h || decide (o = "--help") } := by
  unfold RmCommand.step
  by_cases h1 : o = "-R"
  · subst h1
    simp
  by_cases h2 : o = "-d"
  · subst h2
    simp only [h1, if_false, if_true]
    cases RmCommand.removeEmptyDirectories st.σ st.out with
    | error e => rfl
    | ok r => simp
  by_cases h3 : o = "--help"
  · subst h3
    simp
  by_cases h4 : RmCommand.isExtensionPattern o = true
  · simp only [h1, h2, h3, h4, if_false, if_true]
    cases RmCommand.removeFilesWithExtension regex (String.mk (o.data.drop 1)) st.σ st.out with
    | error e => rfl
    | ok r => simp
  · simp only [h1, h2, h3, h4, if_false]
    cases fs.pathExists st.σ o with
    | error e => rfl
    | ok b => cases b <;> simp

theorem rm_step_help (regex : RegexEngine) (st st1 : RmState) (o : String)
    (h : RmCommand.step regex st o = .ok st1) :
    st1.help = (st.help || decide (o = "--help")) := by
  have h2 := rm_step_set_help regex st st.help o
  have h3 : ({ st with help := st.help } : RmState) = st := rfl
  rw [h3, h] at h2
  simp only [Except.ok.injEq] at h2
  have h4 := congrArg RmState.help h2
  simpa using h4

theorem rm_loop_set_help (regex : RegexEngine) (st : RmState) (h : Bool) (l : List String) :
    RmCommand.loop regex { st with help := h } l =
      match RmCommand.loop regex st l with
      | .error e => .error e
      | .ok s => .ok { s with help := h || decide ("--help" ∈ l) } := by
  induction l generalizing st h with
  | nil => simp [RmCommand.loop]
  | cons o l ih =>
    simp only [RmCommand.loop, rm_step_set_help]
    cases hs : RmCommand.step regex st o with
    | error e => rfl
    | ok s =>
      simp only []
      rw [ih s]
      cases RmCommand.loop regex s l with
      | error e => rfl
      | ok s1 =>
        simp only [Except.ok.injEq]
        by_cases ho : o = "--help"
        · simp [ho]
        · simp [ho, Ne.symm ho]

theorem rm_loop_help (regex : RegexEngine) (st st1 : RmState) (l : List String)
    (h : RmCommand.loop regex st l = .ok st1) :
    st1.help = (st.help || decide ("--help" ∈ l)) := by
  have h2 := rm_loop_set_help regex st st.help l
  have h3 : ({ st with help := st.help } : RmState) = st := rfl
  rw [h3, h] at h2
  simp only [Except.ok.injEq] at h2
  have h4 := congrArg RmState.help h2
  simpa using h4

theorem rm_loop_without_help (regex : RegexEngine) (st : RmState) (l : List String) :
    RmCommand.loop regex st l =
      match RmCommand.loop regex st (l.filter (fun a => a ≠ "--help")) with
      | .error e => .error e
      | .ok s => .ok { s with help := st.help || decide ("--help" ∈ l) } := by
  induction l generalizing st with
  | nil => simp [RmCommand.loop]
  | cons o l ih =>
    by_cases ho : o = "--help"
    · subst ho
      have hf : (("--help" :: l).filter (fun a => a ≠ "--help")) =
          l.filter (fun a => a ≠ "--help") := by simp
      rw [hf]
      have hstep : RmCommand.step regex st "--help" = .ok { st with help := true } := by
        simp [RmCommand.step]
      rw [RmCommand.loop, hstep]
      simp only []
      rw [ih, rm_loop_set_help]
      cases RmCommand.loop regex st (l.filter (fun a => a ≠ "--help")) with
      | error e => rfl
      | ok s => simp
    · have hf : ((o :: l).filter (fun a => a ≠ "--help")) =
          o :: l.filter (fun a => a ≠ "--help") := by simp [ho]
      rw [hf, RmCommand.loop, RmCommand.loop]
      cases hs : RmCommand.step regex st o with
      | error e => rfl
      | ok s =>
        simp only []
        rw [ih s, rm_step_help regex st s o hs]
        cases RmCommand.loop regex s (l.filter (fun a => a ≠ "--help")) with
        | error e => rfl
        | ok s1 => simp [ho, Ne.symm ho]

theorem rm_loop_flags_only (regex : RegexEngine) (st : RmState) (l : List String)
    (hl : ∀ a ∈ l, a = "-R" ∨ a = "--help") :
    ∃ st1, RmCommand.loop regex st l = .ok st1 ∧ st1.σ = st.σ ∧ st1.out = st.out := by
  induction l generalizing st with
  | nil => exact ⟨st, rfl, rfl, rfl⟩
  | cons o l ih =>
    have hl1 : ∀ a ∈ l, a = "-R" ∨ a = "--help" := fun a ha => hl a (List.mem_cons_of_mem _ ha)
    rcases hl o (List.mem_cons_self _ _) with h | h
    · subst h
      obtain ⟨st1, h1, h2, h3⟩ := ih { st with recursive := true } hl1
      exact ⟨st1, by rw [RmCommand.loop]; simpa [RmCommand.step] using h1, h2, h3⟩
    · subst h
      obtain ⟨st1, h1, h2, h3⟩ := ih { st with help := true } hl1
      exact ⟨st1, by rw [RmCommand.loop]; simpa [RmCommand.step] using h1, h2, h3⟩

/-- C1, as stated, fails: `rm real.txt --help` contains `--help`, yet it
removes `real.txt` before it prints the help text. -/
theorem rm_help_after_removal :
    helpState.wellFormed = true ∧
    "--help" ∈ ["rm", "real.txt", "--help"] ∧
    RmCommand.execute ecmaFragment ["rm", "real.txt", "--help"] helpState =
      .ok ({ helpState with entries := [] },
        RmCommand.removedLine "real.txt" :: RmCommand.helpLines) ∧
    fs.pathExists helpState "real.txt" = .ok true ∧
    fs.pathExists { helpState with entries := [] } "real.txt" = .ok false := by
  refine ⟨by decide, by decide, by decide, by decide, by decide⟩

/-- C1, amended.  A handler prints its usage or help text and leaves the file
system (entries, contents, working directory) unchanged

* `cd`: when it gets fewer than two arguments, or its first argument after the
  verb is `--help`;
* `mv`: when it gets no argument at all, or `--help` follows the verb with only
  `-i`, `-f`, `-R` in between, or what follows those leading flags does not
  start with `-` and is not exactly two arguments;
* `rm`: when it gets fewer than two arguments, or `--help` together with
  nothing but `-R` and `--help`;
* `ls`: when `--help` is anywhere after the verb;
* `cp`: when `--version` is absent and either `--help` is anywhere after the
  verb or fewer than two source/destination operands are given.

For `rm` with `--help` anywhere after the verb, the other arguments are
processed in order exactly as the argument loop processes them without
`--help`: when that returns, the run returns the file system it leaves and its
output followed by the help text; when it ends with an uncaught exception, so
does the run, and no help text is printed. -/
theorem help_or_usage_leaves_file_system_unchanged (regex : RegexEngine) (σ : FileSystem)
    (cdArgs mvArgs rmArgs rmArgs2 lsArgs cpArgs : List String)
    (hcd : cdArgs.length < 2 ∨ cdArgs.getD 1 "" = "--help")
    (hmv : mvArgs = [] ∨
      (∃ pre rest, mvArgs.drop 1 = pre ++ "--help" :: rest ∧
        ∀ a ∈ pre, a = "-i" ∨ a = "-f" ∨ a = "-R") ∨
      (∃ pre rest, mvArgs.drop 1 = pre ++ rest ∧ (∀ a ∈ pre, a = "-i" ∨ a = "-f" ∨ a = "-R") ∧
        (∀ a, rest.head? = some a → a.data.head? ≠ some '-') ∧ rest.length ≠ 2))
    (hrm : rmArgs.length < 2 ∨
      ("--help" ∈ rmArgs.drop 1 ∧ ∀ a ∈ rmArgs.drop 1, a = "-R" ∨ a = "--help"))
    (hrm2 : "--help" ∈ rmArgs2.drop 1)
    (hls : "--help" ∈ lsArgs.drop 1)
    (hcp : "--version" ∉ cpArgs.drop 1 ∧
      ("--help" ∈ cpArgs.drop 1 ∨ (CpCommand.operands (cpArgs.drop 1)).length < 2)) :
    CdCommand.execute cdArgs σ =
      .ok (σ, if cdArgs.length < 2 then [.text "Usage: cd <directory>"]
              else CdCommand.helpLines) ∧
    (∃ out ∈ [[Line.text "Usage: mv <options> <source> <destination>"], MvCommand.helpLines,
        [Line.text "Usage: mv <source> <destination>"]],
      MvCommand.execute mvArgs σ = .ok (σ, out)) ∧
    RmCommand.execute regex rmArgs σ =
      .ok (σ, if rmArgs.length < 2 then [.text "Usage: rm <file1> [file2 ...]"]
              else RmCommand.helpLines) ∧
    RmCommand.execute regex rmArgs2 σ =
      (match RmCommand.loop regex ⟨false, false, "", σ, []⟩
          ((rmArgs2.drop 1).filter (fun a => a ≠ "--help")) with
       | .error e => .error e
       | .ok st => .ok (st.σ, st.out ++ RmCommand.helpLines)) ∧
    LsCommand.execute lsArgs σ = .ok (σ, LsCommand.helpLines) ∧
    CpCommand.execute cpArgs σ = .ok (σ, CpCommand.displayHelp) := by
  refine ⟨?_, ?_, ?_, ?_, ?_, ?_⟩
  · unfold CdCommand.execute
    by_cases h : cdArgs.length < 2
    · simp only [h, if_true]
    · rcases hcd with h1 | h1
      · exact absurd h1 h
      · simp only [h, h1, if_false, if_true]
  · unfold MvCommand.execute
    rcases hmv with h | ⟨pre, rest, h1, h2⟩ | ⟨pre, rest, h1, h2, h3, h4⟩
    · subst h
      exact ⟨_, by simp, rfl⟩
    · have hne : mvArgs.isEmpty = false := by
        cases mvArgs with
        | nil => simp at h1
        | cons a as => rfl
      obtain ⟨i1, f1, r1, h5⟩ := mv_parse_leading_flags pre ("--help" :: rest) false false false h2
      refine ⟨MvCommand.helpLines, by simp, ?_⟩
      rw [h1, h5]
      simp [hne, MvCommand.parseOptions]
    · by_cases hne : mvArgs.isEmpty = true
      · refine ⟨[Line.text "Usage: mv <options> <source> <destination>"], by simp, ?_⟩
        simp only [hne, if_true]
      · obtain ⟨i1, f1, r1, h5⟩ := mv_parse_leading_flags pre rest false false false h2
        refine ⟨[Line.text "Usage: mv <source> <destination>"], by simp, ?_⟩
        rw [h1, h5, mv_parse_operands rest i1 f1 r1 h3]
        simp [hne, h4]
  · unfold RmCommand.execute
    by_cases h : rmArgs.length < 2
    · simp only [h, if_true]
    · rcases hrm with h1 | ⟨h1, h2⟩
      · exact absurd h1 h
      · obtain ⟨st1, h3, h4, h5⟩ := rm_loop_flags_only regex ⟨false, false, "", σ, []⟩ _ h2
        have h6 := rm_loop_help regex _ _ _ h3
        simp only [h, if_false, h3]
        simp only [h1, decide_True, Bool.or_true] at h6
        simp [h4, h5, h6]
  · unfold RmCommand.execute
    have hlen : ¬ rmArgs2.length < 2 := by
      intro hlen
      have : rmArgs2.drop 1 = [] := by
        apply List.drop_eq_nil_of_le
        omega
      rw [this] at hrm2
      cases hrm2
    simp only [hlen, if_false]
    rw [rm_loop_without_help regex ⟨false, false, "", σ, []⟩ (rmArgs2.drop 1)]
    cases RmCommand.loop regex ⟨false, false, "", σ, []⟩
        ((rmArgs2.drop 1).filter (fun a => a ≠ "--help")) with
    | error e => rfl
    | ok st => simp only [hrm2, decide_True, Bool.or_true, if_true]
  · unfold LsCommand.execute LsCommand.flags
    simp only [ls_parse_help, hls, decide_True, Bool.or_true, if_true]
  · unfold CpCommand.execute
    have hv := cp_parse_version (cpArgs.drop 1) ⟨false, false, false, false, "", ""⟩
    have hh := cp_parse_help (cpArgs.drop 1) ⟨false, false, false, false, "", ""⟩
    simp only [hcp.1, decide_False, Bool.or_false] at hv
    simp only [hv, Bool.false_eq_true, if_false]
    rcases hcp.2 with h | h
    · simp only [h, decide_True, Bool.or_true] at hh
      simp only [hh, Bool.true_or, if_true]
    · rcases cp_parse_insufficient (cpArgs.drop 1) ⟨false, false, false, false, "", ""⟩ rfl rfl h
        with h1 | h1
      · simp only [h1, decide_True, Bool.or_true, Bool.true_or, if_true]
      · simp only [h1, decide_True, Bool.or_true, Bool.true_or, if_true]

/-- C1 (amended) on one argument list per handler. -/
theorem help_or_usage_leaves_file_system_unchanged_witness :
    (∃ pre rest, (["mv", "-f", "--help", "x"] : List String).drop 1 = pre ++ "--help" :: rest ∧
      ∀ a ∈ pre, a = "-i" ∨ a = "-f" ∨ a = "-R") ∧
    ("--version" ∉ (["cp", "real.txt", "--help"] : List String).drop 1 ∧
      ("--help" ∈ (["cp", "real.txt", "--help"] : List String).drop 1 ∨
        (CpCommand.operands ((["cp", "real.txt", "--help"] : List String).drop 1)).length < 2)) ∧
    CdCommand.execute ["cd", "--help"] helpState = .ok (helpState, CdCommand.helpLines) ∧
    (∃ out ∈ [[Line.text "Usage: mv <options> <source> <destination>"], MvCommand.helpLines,
        [Line.text "Usage: mv <source> <destination>"]],
      MvCommand.execute ["mv", "-f", "--help", "x"] helpState = .ok (helpState, out)) ∧
    RmCommand.execute ecmaFragment ["rm", "-R", "--help"] helpState =
      .ok (helpState, RmCommand.helpLines) ∧
    RmCommand.execute ecmaFragment ["rm", "--help", "real.txt"] helpState =
      (match RmCommand.loop ecmaFragment ⟨false, false, "", helpState, []⟩ ["real.txt"] with
       | .error e => .error e
       | .ok st => .ok (st.σ, st.out ++ RmCommand.helpLines)) ∧
    LsCommand.execute ["ls", "-l", "--help"] helpState = .ok (helpState, LsCommand.helpLines) ∧
    CpCommand.execute ["cp", "real.txt", "--help"] helpState =
      .ok (helpState, CpCommand.displayHelp) :=
  ⟨⟨["-f"], ["x"], rfl, by decide⟩, by decide,
    help_or_usage_leaves_file_system_unchanged ecmaFragment helpState
      ["cd", "--help"] ["mv", "-f", "--help", "x"] ["rm", "-R", "--help"]
      ["rm", "--help", "real.txt"] ["ls", "-l", "--help"] ["cp", "real.txt", "--help"]
      (Or.inr (by decide)) (Or.inr (Or.inl ⟨["-f"], ["x"], rfl, by decide⟩))
      (Or.inr (by decide)) (by decide) (by decide) (by decide)⟩
/-! ## `mv` -/

/-- C3, as stated, fails: `mv -R A B` has neither `-f` nor `-i`, `A` and `B`
both exist, yet `A` is a directory and `-R` is set, so the tree is copied into
`B` and `A` is removed; the conflict line is not printed. -/
theorem mv_recursive_ignores_existing_destination :
    mvState.wellFormed = true ∧
    MvCommand.parseOptions ((["mv", "-R", "A", "B"] : List String).drop 1) false false false =
      .done false false true ["A", "B"] ∧
    fs.pathExists mvState "A" = .ok true ∧ fs.pathExists mvState "B" = .ok true ∧
    MvCommand.execute ["mv", "-R", "A", "B"] mvState =
      .ok ({ mvState with entries := [(["B"], Node.dir), (["B", "f"], Node.file "data" 0o644 5)] },
        [.text "Successfully moved directory A to B"]) ∧
    MvCommand.execute ["mv", "-R", "A", "B"] mvState ≠ .ok (mvState, [MvCommand.conflictLine]) := by
  refine ⟨by decide, by decide, by decide, by decide, by decide, by decide⟩

theorem is_directory_of_pathExists (σ : FileSystem) (p : String)
    (h : fs.pathExists σ p = .ok true) :
    ∃ b, fs.is_directory σ p = .ok b := by
  unfold fs.pathExists at h
  unfold fs.is_directory
  cases hs : fs.status σ p with
  | error e => rw [hs] at h; cases h
  | ok n => exact ⟨_, rfl⟩

/-- C3, amended.  For every `mv` invocation whose parsed flags contain neither
`-f` nor `-i`, with an existing source and an already existing destination,
and whose source is not a directory moved under `-R`, the handler leaves the
file system as it is and prints the destination-exists conflict line. -/
theorem mv_refuses_existing_destination (σ : FileSystem) (args : List String)
    (recursive : Bool) (source destination : String)
    (hargs : args ≠ [])
    (hparse : MvCommand.parseOptions (args.drop 1) false false false =
      .done false false recursive [source, destination])
    (hsrc : fs.pathExists σ source = .ok true)
    (hdst : fs.pathExists σ destination = .ok true)
    (hdir : ¬ (fs.is_directory σ source = .ok true ∧ recursive = true)) :
    MvCommand.execute args σ = .ok (σ, [MvCommand.conflictLine]) := by
  have hne : args.isEmpty = false := by
    cases args with
    | nil => exact absurd rfl hargs
    | cons a as => rfl
  obtain ⟨b, hb⟩ := is_directory_of_pathExists σ source hsrc
  have hd : (b && recursive) = false := by
    cases b <;> cases h2 : recursive <;> simp_all
  unfold MvCommand.execute
  simp only [hne, hparse]
  simp [MvCommand.move, hsrc, hdst, hb, hd]

/-- C3 (amended) on `mv A B` with both present. -/
theorem mv_refuses_existing_destination_witness :
    MvCommand.parseOptions ((["mv", "A", "B"] : List String).drop 1) false false false =
      .done false false false ["A", "B"] ∧
    fs.pathExists mvState "A" = .ok true ∧ fs.pathExists mvState "B" = .ok true ∧
    MvCommand.execute ["mv", "A", "B"] mvState = .ok (mvState, [MvCommand.conflictLine]) :=
  ⟨by decide, by decide, by decide,
    mv_refuses_existing_destination mvState ["mv", "A", "B"] false "A" "B" (by decide)
      (by decide) (by decide) (by decide) (by decide)⟩
/-! ## `rm` -/

set_option maxRecDepth 100000 in
/-- C4: what the code does when an argument after the missing path throws.
`rm -R /d missing.txt -d /real.txt`, run in `/d`: the working directory is
removed, `missing.txt` is reported as not existing and the loop goes on, but
the `-d` sweep then calls `fs::current_path()` outside any `try`; the exception
ends the run, and `/real.txt`, an existing regular file named by a later
argument, is never removed.  The same happens when `fs::exists`, called before
the `try` block, throws on a later argument whose name is too long.  Without
such an argument in between, `/real.txt` is removed. -/
theorem rm_exception_skips_later_path :
    sweepState.wellFormed = true ∧
    fs.is_regular_file sweepState "/real.txt" = .ok true ∧
    RmCommand.loop ecmaFragment ⟨false, false, "", sweepState, []⟩ ["-R", "/d", "missing.txt"] =
      .ok ⟨true, false, "", { sweepState with entries := [(["real.txt"], Node.file "data" 0o644 1)] },
        [.text "Directory '/d' and its contents removed.", RmCommand.missingLine "missing.txt"]⟩ ∧
    RmCommand.execute ecmaFragment ["rm", "-R", "/d", "missing.txt", "-d", "/real.txt"] sweepState =
      .error (.uncaught ⟨"cannot get current path", Errc.no_such_file_or_directory, []⟩) ∧
    RmCommand.execute ecmaFragment ["rm", "missing.txt", longName, "/real.txt"] sweepState =
      .error (.uncaught ⟨"status", Errc.filename_too_long, [longName]⟩) ∧
    RmCommand.execute ecmaFragment ["rm", "-R", "/d", "missing.txt", "/real.txt"] sweepState =
      .ok ({ sweepState with entries := [] },
        [.text "Directory '/d' and its contents removed.", RmCommand.missingLine "missing.txt",
         RmCommand.removedLine "/real.txt"]) := by
  refine ⟨by decide, by decide, by decide, by decide, by decide, by decide⟩
/-! ## Path strings -/

/-- C2: what the code does for the extension `txt`.  `rm *txt` is not taken
for an extension pattern (the argument holds no `.`): it is looked up as a
path, reported missing, and `a.txt` stays.  `rm *.txt` builds the pattern
`.*\..txt$`, which asks for one more character between the dot and `txt`: it
leaves `a.txt` in place and removes `notes.xtxt`, whose name does not end in
`.txt`. -/
theorem rm_extension_pattern_misses_extension :
    extensionState.wellFormed = true ∧
    RmCommand.isExtensionPattern "*txt" = false ∧
    RmCommand.execute ecmaFragment ["rm", "*txt"] extensionState =
      .ok (extensionState, [RmCommand.missingLine "*txt"]) ∧
    parseRegex (".*\\." ++ ".txt" ++ "$") =
      some [.star .any, .one (.lit '.'), .one .any, .one (.lit 't'), .one (.lit 'x'),
        .one (.lit 't'), .eol] ∧
    RmCommand.execute ecmaFragment ["rm", "*.txt"] extensionState =
      .ok ({ extensionState with
              entries := [(["a.txt"], Node.file "A" 0o644 1), (["txt"], Node.file "T" 0o644 3)] },
        [.text "File '/notes.xtxt' removed."]) := by
  refine ⟨by decide, by decide, by decide, by decide, by decide⟩

/-- C9: what the code does when a library call fails outside a `try` block.
`rm -R /d -d`, run in `/d`, removes the working directory and then sweeps it
for empty directories: `fs::current_path()` throws, nothing catches the
exception, and `executeCommand` does not return.  In the state `rm -R /d`
leaves behind, `ls`, `cd ..`, `cd /`, `rm -d` and `rm *.txt` all end the same
way. -/
theorem executeCommand_propagates_filesystem_error :
    uncaughtState.wellFormed = true ∧
    Shell.executeCommand ecmaFragment "rm -R /d -d" uncaughtState =
      .error (.uncaught ⟨"cannot get current path", Errc.no_such_file_or_directory, []⟩) ∧
    Shell.executeCommand ecmaFragment "rm -R /d" uncaughtState =
      .ok ({ uncaughtState with entries := [] },
        [.text "Directory '/d' and its contents removed."]) ∧
    Shell.executeCommand ecmaFragment "ls" { uncaughtState with entries := [] } =
      .error (.uncaught ⟨"cannot get current path", Errc.no_such_file_or_directory, []⟩) ∧
    Shell.executeCommand ecmaFragment "cd .." { uncaughtState with entries := [] } =
      .error (.uncaught ⟨"cannot get current path", Errc.no_such_file_or_directory, []⟩) ∧
    Shell.executeCommand ecmaFragment "cd /" { uncaughtState with entries := [] } =
      .error (.uncaught ⟨"cannot get current path", Errc.no_such_file_or_directory, []⟩) ∧
    Shell.executeCommand ecmaFragment "rm -d" { uncaughtState with entries := [] } =
      .error (.uncaught ⟨"cannot get current path", Errc.no_such_file_or_directory, []⟩) ∧
    Shell.executeCommand ecmaFragment "rm *.txt" { uncaughtState with entries := [] } =
      .error (.uncaught ⟨"cannot get current path", Errc.no_such_file_or_directory, []⟩) := by
  refine ⟨by decide, by decide, by decide, by decide, by decide, by decide, by decide, by decide⟩

/-- C10: what the code does for a nested entry.  The traversal of `S` yields
`S/top.txt`, `S/sub` and `S/sub/x.txt`.  `cp -r S D` creates `D` and copies
each entry to `D / filename`: `top.txt` arrives at `D/top.txt`, the directory
`S/sub` is not copied (`fs::copy` of a directory without
`copy_options::recursive` has no effect), and `S/sub/x.txt` arrives at
`D/x.txt`, not at `D/sub/x.txt`. -/
theorem cp_recursive_flattens_tree :
    copyState.wellFormed = true ∧
    fs.recursive_directory_iterator copyState "S" =
      .ok ["S/top.txt", "S/sub", "S/sub/x.txt"] ∧
    CpCommand.execute ["cp", "-r", "S", "D"] copyState =
      .ok (copiedState, [.text "Successfully copied directory 'S' to 'D'."]) ∧
    fs.pathExists copiedState "D/sub/x.txt" = .ok false ∧
    fs.pathExists copiedState "D/sub" = .ok false ∧
    stat copiedState "D/x.txt" = some (Node.file "hello" 0o644 5) ∧
    stat copiedState "D/top.txt" = some (Node.file "top" 0o644 5) := by
  refine ⟨by decide, by decide, by decide, by decide, by decide, by decide, by decide⟩
